import Mathlib

/-!
Verification development for the bull-top escape-index dashboard.

The JavaScript sources are embedded shallowly:

* JS numbers are modelled by `JSNum`: a rational (`num`), the two
  infinities, or `nan`.  The arithmetic used by the dashboard
  (subtraction, multiplication, division, `Math.min`, `Math.max`) is
  reproduced with JS semantics, including NaN propagation and the
  `0/0 = NaN`, `x/0 = ±Infinity` rules.
* JS values reaching the numeric conversions are modelled by `JSVal`
  (null, undefined, booleans, numbers, strings); `Number(string)`
  conversion is an explicit parameter `conv`, and `Math.log` on
  rationals is an explicit parameter `mlogQ` (its value is transcendental,
  so it cannot be a rational-valued closed function).
* JS `Date` objects are modelled by their epoch day (an `Int`), with the
  civil-calendar conversion giving `getFullYear` / `getMonth` /
  `getDate`, `getDay` as the weekday, and `toISOString().slice(0,10)`
  as `isoDate`.  The runtime is assumed to be in the UTC timezone, so
  the local-time getters and the UTC ISO string agree.
* An invalid JS `Date` is modelled by `none : Option Int`.
-/

/-- Model of a JavaScript number: finite (as a rational), `Infinity`,
`-Infinity`, or `NaN`. -/
inductive JSNum where
  | num (q : ℚ)
  | inf
  | ninf
  | nan
deriving DecidableEq

/-- JS `Number.isFinite`. -/
def jsIsFinite : JSNum → Bool
  | .num _ => true
  | _ => false

/-- JS subtraction `a - b` on numbers. -/
def jsub : JSNum → JSNum → JSNum
  | .nan, _ => .nan
  | _, .nan => .nan
  | .num a, .num b => .num (a - b)
  | .inf, .inf => .nan
  | .inf, _ => .inf
  | .ninf, .ninf => .nan
  | .ninf, _ => .ninf
  | .num _, .inf => .ninf
  | .num _, .ninf => .inf

/-- JS multiplication `a * b` on numbers. -/
def jmul : JSNum → JSNum → JSNum
  | .nan, _ => .nan
  | _, .nan => .nan
  | .num a, .num b => .num (a * b)
  | .inf, .num b => if b = 0 then .nan else if 0 < b then .inf else .ninf
  | .num a, .inf => if a = 0 then .nan else if 0 < a then .inf else .ninf
  | .ninf, .num b => if b = 0 then .nan else if 0 < b then .ninf else .inf
  | .num a, .ninf => if a = 0 then .nan else if 0 < a then .ninf else .inf
  | .inf, .inf => .inf
  | .inf, .ninf => .ninf
  | .ninf, .inf => .ninf
  | .ninf, .ninf => .inf

/-- JS division `a / b` on numbers (zero is treated as `+0`; the data
flowing through the dashboard never produces a negative zero). -/
def jdiv : JSNum → JSNum → JSNum
  | .nan, _ => .nan
  | _, .nan => .nan
  | .num a, .num b =>
      if b = 0 then (if a = 0 then .nan else if 0 < a then .inf else .ninf)
      else .num (a / b)
  | .inf, .num b => if 0 ≤ b then .inf else .ninf
  | .ninf, .num b => if 0 ≤ b then .ninf else .inf
  | .num _, .inf => .num 0
  | .num _, .ninf => .num 0
  | .inf, .inf => .nan
  | .inf, .ninf => .nan
  | .ninf, .inf => .nan
  | .ninf, .ninf => .nan

/-- JS `Math.min` on two numbers. -/
def jmin : JSNum → JSNum → JSNum
  | .nan, _ => .nan
  | _, .nan => .nan
  | .ninf, _ => .ninf
  | _, .ninf => .ninf
  | .inf, x => x
  | x, .inf => x
  | .num a, .num b => .num (min a b)

/-- JS `Math.max` on two numbers. -/
def jmax : JSNum → JSNum → JSNum
  | .nan, _ => .nan
  | _, .nan => .nan
  | .inf, _ => .inf
  | _, .inf => .inf
  | .ninf, x => x
  | x, .ninf => x
  | .num a, .num b => .num (max a b)

/-- JS `Math.log` lifted to `JSNum`; the value on finite arguments is the
parameter `mlogQ` (`Math.log` of a rational is transcendental). -/
def jlog (mlogQ : ℚ → JSNum) : JSNum → JSNum
  | .nan => .nan
  | .inf => .inf
  | .ninf => .nan
  | .num q => mlogQ q

/-- Model of a JavaScript value as it appears in a data cell. -/
inductive JSVal where
  | jnull
  | jundef
  | jbool (b : Bool)
  | jnum (x : JSNum)
  | jstr (s : String)
deriving DecidableEq

/-- JS `Number(v)` conversion; `conv` is the string-to-number parse. -/
def toNumber (conv : String → JSNum) : JSVal → JSNum
  | .jnull => .num 0
  | .jundef => .nan
  | .jbool true => .num 1
  | .jbool false => .num 0
  | .jnum x => x
  | .jstr s => conv s

/-- The row parser's numeric guard, from `parseRow` in the dashboard
(part_003 lines 130-135, part_005 lines 30-34):
null, undefined, the empty string and the string literal NaN map to
null; otherwise `Number(v)` is taken and non-finite results map to
null. -/
def safeNum (conv : String → JSNum) (v : JSVal) : Option ℚ :=
  if v = .jnull ∨ v = .jundef ∨ v = .jstr "" ∨ v = .jstr "NaN" then none
  else
    match toNumber conv v with
    | .num q => some q
    | _ => none

/-- Civil calendar date (year, month 1-12, day 1-31) of an epoch day
(days since 1970-01-01), the standard days-to-civil conversion used by
JS `Date` getters in a UTC runtime. -/
def civilFromDays (z : Int) : Int × Int × Int :=
  let zz := z + 719468
  let era := zz / 146097
  let doe := zz - era * 146097
  let yoe := (doe - doe / 1460 + doe / 36524 - doe / 146096) / 365
  let y := yoe + era * 400
  let doy := doe - (365 * yoe + yoe / 4 - yoe / 100)
  let mp := (5 * doy + 2) / 153
  let d := doy - (153 * mp + 2) / 5 + 1
  let m := if mp < 10 then mp + 3 else mp - 9
  (if m ≤ 2 then y + 1 else y, m, d)

/-- JS `date.getFullYear()` of an epoch day. -/
def jsGetFullYear (z : Int) : Int := (civilFromDays z).1

/-- JS `date.getMonth() + 1` of an epoch day. -/
def jsGetMonth1 (z : Int) : Int := (civilFromDays z).2.1

/-- JS `date.getDate()` of an epoch day. -/
def jsGetDate (z : Int) : Int := (civilFromDays z).2.2

/-- JS `date.getDay()` of an epoch day (0 = Sunday; 1970-01-01 was a
Thursday). -/
def jsGetDay (z : Int) : Int := (z + 4) % 7

/-- JS `String(n).padStart(2, "0")` for the month/day components. -/
def pad2 (n : Int) : String := if n < 10 then "0" ++ toString n else toString n

/-- Four-digit zero-padded year as printed by `toISOString`. -/
def pad4 (n : Int) : String :=
  if n < 10 then "000" ++ toString n
  else if n < 100 then "00" ++ toString n
  else if n < 1000 then "0" ++ toString n
  else toString n

/-- JS `date.toISOString().slice(0, 10)` of an epoch day. -/
def isoDate (z : Int) : String :=
  let c := civilFromDays z
  pad4 c.1 ++ "-" ++ pad2 c.2.1 ++ "-" ++ pad2 c.2.2

/-- A raw data row as served by the API: the value under the date key
(after BOM normalisation of the key), the named numeric cells, and the
signal/level cells. -/
structure RawRow where
  rawDate : Option String
  hs300_close : JSVal
  shanghai_close : JSVal
  hs300_ret : JSVal
  hs300_turnover_log : JSVal
  hs300_amplitude : JSVal
  hs300_turnover_rate : JSVal
  margin_total : JSVal
  douyin_search : JSVal
  crowding_z : JSVal
  escape_index_0_100 : JSVal
  escape_signal : JSVal
  escape_level : Option String
deriving DecidableEq

instance : Inhabited RawRow :=
  ⟨⟨none, .jundef, .jundef, .jundef, .jundef, .jundef, .jundef, .jundef,
    .jundef, .jundef, .jundef, .jundef, none⟩⟩

/-- A parsed row as produced by `parseRow` (part_003 lines 124-156):
`date` is the epoch day of the parsed date, or `none` for an invalid
date. -/
structure Row where
  date : Option Int
  dateStr : Option String
  hs300_close : Option ℚ
  shanghai_close : Option ℚ
  hs300_ret : Option ℚ
  hs300_turnover_log : Option ℚ
  hs300_amplitude : Option ℚ
  hs300_turnover_rate : Option ℚ
  margin_total : Option ℚ
  douyin_search : Option ℚ
  crowding_z : Option ℚ
  escape_index_0_100 : Option ℚ
  escape_signal : Bool
  escape_level : String
  raw : RawRow
deriving DecidableEq

instance : Inhabited Row :=
  ⟨⟨none, none, none, none, none, none, none, none, none, none, none,
    none, false, "", default⟩⟩

/-- `parseRow` from the dashboard (part_003 lines 124-156): `dparse` is
the JS `new Date(string)` parse, returning `none` for an invalid
date. -/
def parseRow (conv : String → JSNum) (dparse : String → Option Int)
    (r : RawRow) : Row :=
  { date := r.rawDate.bind dparse
    dateStr := r.rawDate
    hs300_close := safeNum conv r.hs300_close
    shanghai_close := safeNum conv r.shanghai_close
    hs300_ret := safeNum conv r.hs300_ret
    hs300_turnover_log := safeNum conv r.hs300_turnover_log
    hs300_amplitude := safeNum conv r.hs300_amplitude
    hs300_turnover_rate := safeNum conv r.hs300_turnover_rate
    margin_total := safeNum conv r.margin_total
    douyin_search := safeNum conv r.douyin_search
    crowding_z := safeNum conv r.crowding_z
    escape_index_0_100 := safeNum conv r.escape_index_0_100
    escape_signal :=
      decide (r.escape_signal = .jstr "1" ∨ r.escape_signal = .jbool true ∨
        r.escape_signal = .jstr "true")
    escape_level := r.escape_level.getD ""
    raw := r }

/-- The chart aggregation period (part_003 line 172: day, week, month,
year). -/
inductive Period where
  | day
  | week
  | month
  | year
deriving DecidableEq

/-- The grouping key computed by `aggregateByPeriod` for a row
(part_003 lines 177-198).  For the week period the code first builds a
throwaway year-week key and immediately overwrites it with the ISO date
of the Monday of the row's week; only the final value matters.  The
row's date is assumed valid (an invalid date would make the JS
`toISOString` call throw). -/
def periodKey (p : Period) (r : Row) : String :=
  let z := r.date.getD 0
  match p with
  | .day => ""
  | .week => isoDate (z - ((jsGetDay z + 6) % 7))
  | .month => toString (jsGetFullYear z) ++ "-" ++ pad2 (jsGetMonth1 z)
  | .year => toString (jsGetFullYear z)

/-- Append a row to the group of key `k`, creating the group at the end
if absent: the `Map` in `aggregateByPeriod` keeps keys in insertion
order. -/
def insertGroup (acc : List (String × List Row)) (k : String) (r : Row) :
    List (String × List Row) :=
  match acc with
  | [] => [(k, [r])]
  | (k', g) :: rest =>
      if k' = k then (k', g ++ [r]) :: rest
      else (k', g) :: insertGroup rest k r

/-- The grouping pass of `aggregateByPeriod` (part_003 lines 175-202). -/
def groupByKey (data : List Row) (p : Period) : List (String × List Row) :=
  data.foldl (fun acc r => insertGroup acc (periodKey p r) r) []

/-- An aggregated chart point as built by `aggregateByPeriod`
(part_003 lines 210-221): exactly the fields the chart consumes. -/
structure AggRow where
  date : Option Int
  dateStr : Option String
  escape_index_0_100 : Option ℚ
  hs300_close : Option ℚ
  shanghai_close : Option ℚ
  douyin_search : Option ℚ
  margin_total : Option ℚ
  hs300_turnover_rate : Option ℚ
  crowding_z : Option ℚ
  raw : RawRow
deriving DecidableEq

instance : Inhabited AggRow :=
  ⟨⟨none, none, none, none, none, none, none, none, none, default⟩⟩

/-- Projection of a parsed row onto the chart-point fields; the
`day` branch of `aggregateByPeriod` returns its input rows unchanged,
of which the chart reads exactly these fields. -/
def toAggRow (r : Row) : AggRow :=
  { date := r.date
    dateStr := r.dateStr
    escape_index_0_100 := r.escape_index_0_100
    hs300_close := r.hs300_close
    shanghai_close := r.shanghai_close
    douyin_search := r.douyin_search
    margin_total := r.margin_total
    hs300_turnover_rate := r.hs300_turnover_rate
    crowding_z := r.crowding_z
    raw := r.raw }

/-- JS `Number(x.toFixed(4))`: round to four decimal places, ties
toward the larger value. -/
def toFixed4 (q : ℚ) : ℚ := (⌊q * 10000 + 1 / 2⌋ : ℚ) / 10000

/-- The aggregated point of one group (part_003 lines 205-221): label
by the last row of the group, escape index is
`Number(meanEscape.toFixed(4))` where `meanEscape` sums
`x.escape_index_0_100 || 0` over the whole group and divides by the
group size. -/
def aggPoint (g : List Row) : AggRow :=
  let last := (g.getLast?).getD default
  let meanEscape : ℚ :=
    (g.foldl (fun s x => s + x.escape_index_0_100.getD 0) 0) / (g.length : ℚ)
  { date := last.date
    dateStr := last.dateStr
    escape_index_0_100 := some (toFixed4 meanEscape)
    hs300_close := last.hs300_close
    shanghai_close := last.shanghai_close
    douyin_search := last.douyin_search
    margin_total := last.margin_total
    hs300_turnover_rate := last.hs300_turnover_rate
    crowding_z := last.crowding_z
    raw := last.raw }

/-- `aggregateByPeriod` (part_003 lines 172-226): no aggregation for
the day period; otherwise group by the period key, aggregate each
group, and sort the points by date. -/
def aggregateByPeriod (data : List Row) (p : Period) : List AggRow :=
  match p with
  | .day => data.map toAggRow
  | _ =>
      ((groupByKey data p).map (fun kg => aggPoint kg.2)).mergeSort
        (fun a b => a.date.getD 0 ≤ b.date.getD 0)

/-- `downsampleEven` (part_003 lines 159-170): keep the input when it
already has at most `target` points, otherwise select evenly spaced
indices and force the last selected point to be the input's last
element. -/
def downsampleEven {α : Type} [Inhabited α] [DecidableEq α]
    (data : List α) (target : Nat) : List α :=
  if data.length ≤ target then data
  else
    let n := data.length
    let out := (List.range target).map (fun i => data.getD (i * n / target) default)
    if out.getLast? = data.getLast? then out
    else out.set (out.length - 1) (data.getD (n - 1) default)

/-- The data ingestion of `fetchData` (part_003 lines 345-348): parse
every served row, drop rows whose date is invalid, and sort by date. -/
def fetchPipeline (conv : String → JSNum) (dparse : String → Option Int)
    (rows : List RawRow) : List Row :=
  ((rows.map (parseRow conv dparse)).filter (fun p => p.date.isSome)).mergeSort
    (fun a b => a.date.getD 0 ≤ b.date.getD 0)

/-- The chart recomputation chained as in `chartData`
(part_003 lines 397-411): parse, aggregate by the selected period,
downsample to the point budget. -/
def chartTransform (conv : String → JSNum) (dparse : String → Option Int)
    (rows : List RawRow) (p : Period) (target : Nat) : List AggRow :=
  downsampleEven (aggregateByPeriod (fetchPipeline conv dparse rows) p) target

/-- The raw-data field named by an overlay key. -/
inductive OverlayKey where
  | hs300_close
  | shanghai_close
  | hs300_turnover_rate
  | margin_total
  | douyin_search
  | crowding_z
  | hs300_amplitude
deriving DecidableEq

/-- Read the raw cell named by an overlay key (`d.raw?.[overlayKey]`). -/
def rawField (r : RawRow) : OverlayKey → JSVal
  | .hs300_close => r.hs300_close
  | .shanghai_close => r.shanghai_close
  | .hs300_turnover_rate => r.hs300_turnover_rate
  | .margin_total => r.margin_total
  | .douyin_search => r.douyin_search
  | .crowding_z => r.crowding_z
  | .hs300_amplitude => r.hs300_amplitude

/-- Overlay scaling mode. -/
inductive OverlayScale where
  | linear
  | log
deriving DecidableEq

/-- One entry of the dashboard's overlay configuration. -/
structure OverlayOption where
  key : OverlayKey
  scale : OverlayScale
  minValue : Option ℚ
  maxValue : Option ℚ
deriving DecidableEq

/-- The overlay configuration table (part_003 lines 47-111). -/
def overlayOptions : List OverlayOption :=
  [⟨.hs300_close, .linear, some 0, none⟩,
   ⟨.shanghai_close, .linear, some 0, none⟩,
   ⟨.hs300_turnover_rate, .log, some (1 / 10), some 10⟩,
   ⟨.margin_total, .linear, some 0, none⟩,
   ⟨.douyin_search, .linear, some 0, none⟩,
   ⟨.crowding_z, .linear, some (-3), some 3⟩,
   ⟨.hs300_amplitude, .linear, some 0, some 10⟩]

/-- JS `Math.min(...xs)`: the fold starts at `Infinity`. -/
def listMin (xs : List JSNum) : JSNum := xs.foldl jmin .inf

/-- JS `Math.max(...xs)`: the fold starts at `-Infinity`. -/
def listMax (xs : List JSNum) : JSNum := xs.foldl jmax .ninf

/-- The overlay column added to the chart by `processedChartData`
(part_003 lines 423-476), as the list of per-row values for one
overlay: `none` where the code stores `null`, and `none` for the whole
column when the overlay is skipped because no usable raw value exists.
`conv` is JS string-to-number conversion and `mlogQ` is `Math.log` on
finite arguments. -/
def overlayColumn (conv : String → JSNum) (mlogQ : ℚ → JSNum)
    (opt : OverlayOption) (chart : List RawRow) :
    Option (List (Option JSNum)) :=
  let rawVals := chart.map (fun r => rawField r opt.key)
  let values := rawVals.filter
    (fun v => decide (v ≠ .jnull ∧ v ≠ .jundef ∧ toNumber conv v ≠ .nan))
  if values.length = 0 then none
  else
    let nums := values.map (toNumber conv)
    let rmin := listMin nums
    let rmax := listMax nums
    some (rawVals.map (fun v =>
      if v = .jnull ∨ v = .jundef ∨ toNumber conv v = .nan then none
      else
        let x := toNumber conv v
        let normalized :=
          match opt.scale with
          | .log =>
              let base : ℚ :=
                match opt.minValue with
                | some q => if q = 0 then 1 / 10 else q
                | none => 1 / 10
              let minV := jmax (.num base) rmin
              let maxV : JSNum :=
                match opt.maxValue with
                | some q => if q = 0 then rmax else .num q
                | none => rmax
              jdiv (jsub (jlog mlogQ x) (jlog mlogQ minV))
                (jsub (jlog mlogQ maxV) (jlog mlogQ minV))
          | .linear =>
              let minV :=
                match opt.minValue with
                | some q => JSNum.num q
                | none => rmin
              let maxV :=
                match opt.maxValue with
                | some q => JSNum.num q
                | none => rmax
              jdiv (jsub x minV) (jsub maxV minV)
        some (jmax (.num 0) (jmin (.num 100) (jmul normalized (.num 100))))))

/-- The claim's predicate on one chart overlay value: an explicit
"no value" marker, or a number clamped into the interval from 0 to
100. -/
def claimOverlayOk (v : Option JSNum) : Bool :=
  match v with
  | none => true
  | some (.num q) => decide (0 ≤ q ∧ q ≤ 100)
  | some _ => false

/-- The weakening forced by the degenerate-range counterexample: the
value may also be NaN. -/
def claimOverlayOkOrNaN (v : Option JSNum) : Bool :=
  claimOverlayOk v || v = some .nan

/-- JS `Math.round`: round half toward positive infinity. -/
def jsRound (q : ℚ) : ℚ := (⌊q + 1 / 2⌋ : ℚ)

/-- The clamped escape index of the mock generator
(part_002 lines 16-23): `Math.max(0, Math.min(100, baseIndex + noise))`;
the sine-derived base and the random noise enter as arbitrary
rationals. -/
def mockEscapeRaw (base noise : ℚ) : ℚ := max 0 (min 100 (base + noise))

/-- The stored mock escape index (part_002 line 35):
`Math.round(escapeIndex * 100) / 100`. -/
def mockEscapeIndex (base noise : ℚ) : ℚ :=
  jsRound (mockEscapeRaw base noise * 100) / 100

/-- The mock generator's signal cell (part_002 line 36):
the string "1" exactly when the clamped escape index exceeds 70. -/
def mockEscapeSignal (base noise : ℚ) : String :=
  if 70 < mockEscapeRaw base noise then "1" else "0"

/-- `getRiskLevel` from the statistics panel
(StatisticsPanel.jsx lines 38-68). -/
def getRiskLevel (v : ℚ) : String :=
  if 80 ≤ v then "极高风险"
  else if 70 ≤ v then "高风险"
  else if 60 ≤ v then "中等风险"
  else if 40 ≤ v then "低风险"
  else "极低风险"

/-- The five tier names of `getRiskLevel`, ordered from lowest to
highest risk. -/
def tierNames : List String :=
  ["极低风险", "低风险", "中等风险", "高风险", "极高风险"]

/-- Ordered threshold lookup: the rank of `v` against an ascending
breakpoint list, i.e. how many breakpoints are at most `v` (0 = below
the first breakpoint, length = at or above the last). -/
def orderedLookup (bps : List ℚ) (v : ℚ) : Nat :=
  bps.countP (fun b => decide (b ≤ v))

/-- Modelled from the spec: the Signal Classifier of the core engine.
The engine (the bulltop_escape_calc Python module described in the
repository's development document, part_000) is not present under
src/; per the spec, the boolean signal is defined exactly when the
index value is defined and equals (index value at least the signal
threshold). -/
def signalClassifier (threshold : ℚ) (idx : Option ℚ) : Option Bool :=
  idx.map (fun v => decide (threshold ≤ v))

/-- Modelled from the spec: the default signal threshold of the core
engine (spec section 4.6; also the development document's default for
the signal option). -/
def defaultSignalThreshold : ℚ := 75

/-- A cached server row: a CSV record as an ordered association list of
column name to cell string (JS objects preserve insertion order). -/
abbrev SRow : Type := List (String × String)

/-- JS property read `row[col]` on a cached row: `none` models
`undefined`. -/
def jsGet (r : SRow) (k : String) : Option String :=
  (r.find? (fun p => p.1 = k)).map (fun p => p.2)

/-- The two possible payloads of the columnar `/api/data` endpoint. -/
inductive ApiResponse where
  | success (columns : List String) (data : List (List (Option String)))
      (count : Nat)
  | error500 (message : String)
deriving DecidableEq

/-- The error message of the part_001 endpoint. -/
def apiErrorMessage : String := "服务器未能成功加载数据，请稍后重试或检查CSV文件"

/-- The `/api/data` handler of part_001 (lines 121-142): on a non-null,
non-empty cache respond with the column names of the first cached row,
the row-major matrix of cell values in column order, and the row count;
otherwise respond with HTTP 500 and the error payload. -/
def apiDataEndpoint (cache : Option (List SRow)) : ApiResponse :=
  match cache with
  | some rows =>
      if 0 < rows.length then
        let columns := (rows.headD []).map Prod.fst
        .success columns
          (rows.map (fun r => columns.map (fun c => jsGet r c)))
          rows.length
      else .error500 apiErrorMessage
  | none => .error500 apiErrorMessage

/-- Modelled from the spec's words, for comparison in claim C1: the
period mean computed only from the defined escape values of a group
(rows with a missing escape index contributing no value). -/
def definedOnlyMean (g : List Row) : ℚ :=
  (g.filterMap Row.escape_index_0_100).sum /
    ((g.filterMap Row.escape_index_0_100).length : ℚ)

/-- A concrete string-to-number conversion for witnesses; the involved
cells never reach it. -/
def demoConv : String → JSNum := fun _ => .nan

/-- A concrete stand-in for `Math.log` on finite arguments in
witnesses; the involved overlays are linear and never reach it. -/
def demoLog : ℚ → JSNum := fun _ => .nan

/-- A concrete date parse for witnesses: three consecutive March 2021
trading days, everything else invalid. -/
def demoDateParse : String → Option Int := fun s =>
  if s = "2021-03-01" then some 18687
  else if s = "2021-03-02" then some 18688
  else if s = "2021-03-03" then some 18689
  else none

/-- A parsed row dated 2021-03-01 with escape index 10. -/
def c1rowA : Row :=
  { (default : Row) with
    date := some 18687
    dateStr := some "2021-03-01"
    escape_index_0_100 := some 10 }

/-- A parsed row dated 2021-03-02 with a missing escape index. -/
def c1rowB : Row :=
  { (default : Row) with
    date := some 18688
    dateStr := some "2021-03-02"
    escape_index_0_100 := none }

/-- A cached two-row, two-column server table. -/
def c2rows : List SRow :=
  [[("date", "2021-03-01"), ("idx", "55")],
   [("date", "2021-03-02"), ("idx", "60")]]

/-- The hs300-close overlay entry of the configuration table (linear
scale, fixed minimum 0, dynamic maximum). -/
def overlayOptClose : OverlayOption := ⟨.hs300_close, .linear, some 0, none⟩

/-- The crowding-z overlay entry of the configuration table (linear
scale, fixed range from -3 to 3). -/
def overlayOptCrowd : OverlayOption := ⟨.crowding_z, .linear, some (-3), some 3⟩

/-- A one-row chart whose hs300 close is 0: the dynamic maximum then
equals the configured minimum and the linear scaling divides 0 by 0. -/
def c5chartDegenerate : List RawRow :=
  [{ (default : RawRow) with hs300_close := .jnum (.num 0) }]

/-- A one-row chart with crowding-z equal to 0. -/
def c5chartPlain : List RawRow :=
  [{ (default : RawRow) with crowding_z := .jnum (.num 0) }]

/-- A fully populated raw row dated 2021-03-01. -/
def c7rowFull : RawRow :=
  { rawDate := some "2021-03-01"
    hs300_close := .jnum (.num 3500)
    shanghai_close := .jnum (.num 3400)
    hs300_ret := .jnum (.num (1 / 100))
    hs300_turnover_log := .jnum (.num 1)
    hs300_amplitude := .jnum (.num 2)
    hs300_turnover_rate := .jnum (.num 3)
    margin_total := .jnum (.num 1000000)
    douyin_search := .jnum (.num 50)
    crowding_z := .jnum (.num (1 / 2))
    escape_index_0_100 := .jnum (.num 55)
    escape_signal := .jstr "0"
    escape_level := some "低风险" }

/-- The same row dated 2021-03-02 with the sentiment proxy missing. -/
def c7rowNoSentiment : RawRow :=
  { c7rowFull with rawDate := some "2021-03-02", douyin_search := .jnull }

/-- The same row dated 2021-03-03 with the factors that need trailing
history missing. -/
def c7rowShortHistory : RawRow :=
  { c7rowFull with
    rawDate := some "2021-03-03"
    crowding_z := .jundef
    escape_index_0_100 := .jstr "NaN" }

/-- The three-row end-to-end input table of the spec scenario. -/
def c7rows : List RawRow := [c7rowFull, c7rowNoSentiment, c7rowShortHistory]

/-- A one-row raw table for the determinism witness. -/
def c8rows : List RawRow :=
  [{ (default : RawRow) with
     rawDate := some "2021-03-01"
     escape_index_0_100 := .jnum (.num 42) }]

/-- C9: the row parser's numeric conversion is total and returns either
a finite number or null, never NaN: null, undefined, the empty string
and the literal string NaN map to null, any value whose numeric
conversion is non-finite maps to null, and every other value maps to
its finite numeric conversion. -/
theorem c9_safeNum_finite_or_null (conv : String → JSNum) :
    (∀ v : JSVal,
        v = .jnull ∨ v = .jundef ∨ v = .jstr "" ∨ v = .jstr "NaN" →
        safeNum conv v = none) ∧
    (∀ v : JSVal, jsIsFinite (toNumber conv v) = false →
        safeNum conv v = none) ∧
    (∀ v : JSVal,
        ¬(v = .jnull ∨ v = .jundef ∨ v = .jstr "" ∨ v = .jstr "NaN") →
        ∀ q : ℚ, toNumber conv v = .num q → safeNum conv v = some q) := by
  refine ⟨fun v h => ?_, fun v h => ?_, fun v h q hq => ?_⟩
  · unfold safeNum
    rw [if_pos h]
  · unfold safeNum
    split
    · rfl
    · cases htn : toNumber conv v <;> simp_all [jsIsFinite]
  · unfold safeNum
    rw [if_neg h, hq]

/-- Witness for C9 at the literal string NaN and at a finite number. -/
theorem c9_witness :
    safeNum demoConv (.jstr "NaN") = none ∧
    safeNum demoConv (.jnum (.num 3)) = some 3 :=
  ⟨(c9_safeNum_finite_or_null demoConv).1 (.jstr "NaN")
      (Or.inr (Or.inr (Or.inr rfl))),
   (c9_safeNum_finite_or_null demoConv).2.2 (.jnum (.num 3)) (by decide) 3 rfl⟩

/-- C3: for every date with a defined index value the boolean signal
equals (index value at least the signal threshold); with the default
threshold 75, an index of 76 yields true and 74.99 yields false, and an
undefined index yields no signal. -/
theorem c3_signal_classifier :
    (∀ v : ℚ, signalClassifier defaultSignalThreshold (some v) =
        some (decide (defaultSignalThreshold ≤ v))) ∧
    signalClassifier defaultSignalThreshold (some 76) = some true ∧
    signalClassifier defaultSignalThreshold (some (74.99 : ℚ)) = some false ∧
    signalClassifier defaultSignalThreshold none = none := by
  refine ⟨fun v => rfl, by decide, ?_, rfl⟩
  norm_num [signalClassifier, defaultSignalThreshold]

/-- C10: the part_001 /api/data endpoint has exactly two outcomes: the
success payload exactly when the cache is non-null and holds at least
one row, and otherwise the HTTP 500 error payload; a successfully
loaded zero-row CSV yields the same 500 error as a failed load. -/
theorem c10_api_success_iff :
    (∀ cache : Option (List SRow),
        (∃ cols dat c, apiDataEndpoint cache = .success cols dat c) ↔
          ∃ rows, cache = some rows ∧ rows ≠ []) ∧
    apiDataEndpoint (some []) = .error500 apiErrorMessage ∧
    apiDataEndpoint none = .error500 apiErrorMessage := by
  refine ⟨fun cache => ⟨?_, ?_⟩, rfl, rfl⟩
  · rintro ⟨cols, dat, c, h⟩
    match cache with
    | none => simp [apiDataEndpoint] at h
    | some rows =>
        refine ⟨rows, rfl, fun hrows => ?_⟩
        subst hrows
        simp [apiDataEndpoint] at h
  · rintro ⟨rows, rfl, hne⟩
    have hlen : 0 < rows.length := List.length_pos.2 hne
    have h : apiDataEndpoint (some rows) =
        .success ((rows.headD []).map Prod.fst)
          (rows.map (fun r => ((rows.headD []).map Prod.fst).map (fun c => jsGet r c)))
          rows.length := by
      simp [apiDataEndpoint, hlen]
    exact ⟨_, _, _, h⟩

/-- C8: recomputation is deterministic: running the chart
transformation (row parsing, period aggregation, downsampling) twice on
equal inputs yields equal outputs; the embedded functions carry no
state besides their arguments. -/
theorem c8_deterministic (conv₁ conv₂ : String → JSNum)
    (dparse₁ dparse₂ : String → Option Int) (rows₁ rows₂ : List RawRow)
    (p₁ p₂ : Period) (t₁ t₂ : Nat)
    (hconv : conv₁ = conv₂) (hdp : dparse₁ = dparse₂) (hrows : rows₁ = rows₂)
    (hp : p₁ = p₂) (ht : t₁ = t₂) :
    chartTransform conv₁ dparse₁ rows₁ p₁ t₁ =
      chartTransform conv₂ dparse₂ rows₂ p₂ t₂ := by
  subst hconv hdp hrows hp ht
  rfl

/-- Witness for C8: two runs on the same one-row table, month period
and point budget 5 agree. -/
theorem c8_witness :
    chartTransform demoConv demoDateParse c8rows Period.month 5 =
      chartTransform demoConv demoDateParse c8rows Period.month 5 :=
  c8_deterministic demoConv demoConv demoDateParse demoDateParse c8rows c8rows
    Period.month Period.month 5 5 rfl rfl rfl rfl rfl

/-- C4 counterexample: at index 83 the dashboard's tier is the highest
of its five tiers (rank 4, the tier entered at 80), not the rank-3 tier
that the ordered lookup against the claimed breakpoints 40/60/75/85
assigns to 83. -/
theorem c4_counterexample :
    getRiskLevel 83 = "极高风险" ∧
    tierNames.indexOf "极高风险" = 4 ∧
    orderedLookup [40, 60, 75, 85] (83 : ℚ) = 3 ∧
    (4 : ℕ) ≠ 3 := by
  refine ⟨by decide, by decide, by decide, by decide⟩

/-- C4 amended: the dashboard's risk tier is an ordered lookup of the
index against the breakpoints 40/60/70/80 over five tiers; index 83
falls in the highest tier (at least 80) and index 39 in the lowest. -/
theorem c4_risk_tier_lookup :
    (∀ v : ℚ,
        getRiskLevel v = tierNames.getD (orderedLookup [40, 60, 70, 80] v) "") ∧
    getRiskLevel 83 = "极高风险" ∧
    getRiskLevel 39 = "极低风险" := by
  refine ⟨fun v => ?_, by decide, by decide⟩
  unfold getRiskLevel orderedLookup tierNames
  by_cases h80 : (80 : ℚ) ≤ v
  · have h70 : (70 : ℚ) ≤ v := by linarith
    have h60 : (60 : ℚ) ≤ v := by linarith
    have h40 : (40 : ℚ) ≤ v := by linarith
    simp [h40, h60, h70, h80]
  · by_cases h70 : (70 : ℚ) ≤ v
    · have h60 : (60 : ℚ) ≤ v := by linarith
      have h40 : (40 : ℚ) ≤ v := by linarith
      simp [h40, h60, h70, h80]
    · by_cases h60 : (60 : ℚ) ≤ v
      · have h40 : (40 : ℚ) ≤ v := by linarith
        simp [h40, h60, h70, h80]
      · by_cases h40 : (40 : ℚ) ≤ v
        · simp [h40, h60, h70, h80]
        · simp [h40, h60, h70, h80]

/-- On a row whose keys are distinct, the JS property read returns the
stored value of every entry. -/
theorem jsGet_of_mem {r : SRow} (hnd : (r.map Prod.fst).Nodup)
    {p : String × String} (hp : p ∈ r) : jsGet r p.1 = some p.2 := by
  induction r with
  | nil => cases hp
  | cons a t ih =>
      rw [List.map_cons, List.nodup_cons] at hnd
      rcases List.mem_cons.1 hp with rfl | hmem
      · unfold jsGet
        rw [@List.find?_cons_of_pos _ (fun q => decide (q.1 = p.1)) p t (by simp)]
        rfl
      · have hne : ¬((fun q : String × String => decide (q.1 = p.1)) a = true) := by
          simp only [decide_eq_true_eq]
          intro he
          exact hnd.1 (he ▸ List.mem_map_of_mem Prod.fst hmem)
        unfold jsGet
        rw [@List.find?_cons_of_neg _ (fun q => decide (q.1 = p.1)) a t hne]
        exact ih hnd.2 hmem

/-- Zipping a row's key list with the values looked up for those keys
reconstructs the row (each value wrapped in `some`). -/
theorem zip_keys_reconstruct {r : SRow} (hnd : (r.map Prod.fst).Nodup) :
    (r.map Prod.fst).zip ((r.map Prod.fst).map (fun c => jsGet r c)) =
      r.map (fun p => (p.1, some p.2)) := by
  rw [List.map_map, List.zip_map']
  exact List.map_congr_left (fun p hp => by
    show (p.1, jsGet r p.1) = (p.1, some p.2)
    rw [jsGet_of_mem hnd hp])

/-- C2: the serving layer republishes the cached table verbatim: for a
non-empty cache the response's column list is the key list of the first
row, the data matrix looks each row up at those columns, the count is
the row count, and zipping the columns with a data row reconstructs the
original row exactly.  Rows produced by the CSV parse all share the
first row's (distinct) keys, which enters as a hypothesis. -/
theorem c2_api_roundtrip (rows : List SRow) (hne : rows ≠ [])
    (hkeys : ∀ r ∈ rows, r.map Prod.fst = (rows.headD []).map Prod.fst)
    (hnd : ((rows.headD []).map Prod.fst).Nodup) :
    apiDataEndpoint (some rows) =
      .success ((rows.headD []).map Prod.fst)
        (rows.map (fun r =>
          ((rows.headD []).map Prod.fst).map (fun c => jsGet r c)))
        rows.length ∧
    ∀ r ∈ rows,
      ((rows.headD []).map Prod.fst).zip
          (((rows.headD []).map Prod.fst).map (fun c => jsGet r c)) =
        r.map (fun p => (p.1, some p.2)) := by
  constructor
  · simp [apiDataEndpoint, List.length_pos.2 hne]
  · intro r hr
    rw [← hkeys r hr]
    exact zip_keys_reconstruct (by rw [hkeys r hr]; exact hnd)

/-- Witness for C2 on a concrete two-row, two-column cached table. -/
theorem c2_witness :
    apiDataEndpoint (some c2rows) =
      .success ((c2rows.headD []).map Prod.fst)
        (c2rows.map (fun r =>
          ((c2rows.headD []).map Prod.fst).map (fun c => jsGet r c)))
        c2rows.length ∧
    ((c2rows.headD []).map Prod.fst).zip
        (((c2rows.headD []).map Prod.fst).map
          (fun c => jsGet (c2rows.headD []) c)) =
      (c2rows.headD []).map (fun p => (p.1, some p.2)) := by
  have h := c2_api_roundtrip c2rows (by decide) (by decide) (by decide)
  exact ⟨h.1, h.2 (c2rows.headD []) (by decide)⟩

/-- C7: one consumer-visible row per served row: when every served row
carries a parseable date, the ingested table is a permutation of the
rows' parses (each row carried through with its missing cells as
explicit no-values) and in particular has the same row count. -/
theorem c7_rows_carried (conv : String → JSNum) (dparse : String → Option Int)
    (rows : List RawRow)
    (hdate : ∀ r ∈ rows, ∃ s z, r.rawDate = some s ∧ dparse s = some z) :
    (fetchPipeline conv dparse rows).Perm (rows.map (parseRow conv dparse)) ∧
    (fetchPipeline conv dparse rows).length = rows.length := by
  have hfilter : (rows.map (parseRow conv dparse)).filter
      (fun p => p.date.isSome) = rows.map (parseRow conv dparse) := by
    rw [List.filter_eq_self]
    intro p hp
    rcases List.mem_map.1 hp with ⟨r, hr, rfl⟩
    rcases hdate r hr with ⟨s, z, hs, hz⟩
    simp [parseRow, hs, hz]
  constructor
  · unfold fetchPipeline
    rw [hfilter]
    exact List.mergeSort_perm _ _
  · unfold fetchPipeline
    rw [hfilter, List.length_mergeSort, List.length_map]

/-- Witness for C7: the spec's three-row scenario (one full row, one
missing the sentiment proxy, one missing the history-dependent cells)
yields exactly three rows. -/
theorem c7_witness :
    (fetchPipeline demoConv demoDateParse c7rows).Perm
      (c7rows.map (parseRow demoConv demoDateParse)) ∧
    (fetchPipeline demoConv demoDateParse c7rows).length = 3 := by
  have h := c7_rows_carried demoConv demoDateParse c7rows (by
    intro r hr
    rcases List.mem_cons.1 hr with rfl | hr
    · exact ⟨"2021-03-01", 18687, rfl, rfl⟩
    rcases List.mem_cons.1 hr with rfl | hr
    · exact ⟨"2021-03-02", 18688, rfl, rfl⟩
    rcases List.mem_cons.1 hr with rfl | hr
    · exact ⟨"2021-03-03", 18689, rfl, rfl⟩
    · cases hr)
  exact ⟨h.1, h.2⟩

/-- Every group built by `insertGroup` is non-empty, given the groups
already accumulated are. -/
theorem insertGroup_ne_nil (acc : List (String × List Row)) (k : String)
    (r : Row) (h : ∀ kg ∈ acc, kg.2 ≠ []) :
    ∀ kg ∈ insertGroup acc k r, kg.2 ≠ [] := by
  induction acc with
  | nil =>
      intro kg hkg
      rcases List.mem_cons.1 hkg with rfl | hkg
      · simp
      · cases hkg
  | cons a t ih =>
      intro kg hkg
      obtain ⟨k', g⟩ := a
      unfold insertGroup at hkg
      by_cases hk : k' = k
      · rw [if_pos hk] at hkg
        rcases List.mem_cons.1 hkg with rfl | hkg
        · simp
        · exact h kg (List.mem_cons_of_mem _ hkg)
      · rw [if_neg hk] at hkg
        rcases List.mem_cons.1 hkg with rfl | hkg
        · exact h (k', g) (List.mem_cons_self _ _)
        · exact ih (fun kg hkg => h kg (List.mem_cons_of_mem _ hkg)) kg hkg

/-- Every group produced by the grouping pass is non-empty. -/
theorem groupByKey_ne_nil (data : List Row) (p : Period) :
    ∀ kg ∈ groupByKey data p, kg.2 ≠ [] := by
  unfold groupByKey
  suffices h : ∀ acc : List (String × List Row),
      (∀ kg ∈ acc, kg.2 ≠ []) →
      ∀ kg ∈ data.foldl (fun acc r => insertGroup acc (periodKey p r) r) acc,
        kg.2 ≠ [] by
    exact h [] (fun kg hkg => absurd hkg (List.not_mem_nil kg))
  induction data with
  | nil => exact fun acc hacc => hacc
  | cons r rest ih =>
      intro acc hacc
      exact ih (insertGroup acc (periodKey p r) r)
        (insertGroup_ne_nil acc (periodKey p r) r hacc)

/-- The zero-filled escape sum of `aggregateByPeriod` equals the sum of
the defined escape values: a missing escape index contributes 0 to the
numerator while still counting in the denominator. -/
theorem foldl_escape_sum (g : List Row) (s : ℚ) :
    g.foldl (fun s x => s + x.escape_index_0_100.getD 0) s =
      s + (g.filterMap Row.escape_index_0_100).sum := by
  induction g generalizing s with
  | nil => simp
  | cons x rest ih =>
      cases hx : x.escape_index_0_100 with
      | none =>
          simp only [List.foldl_cons, List.filterMap_cons, hx]
          rw [ih]
          simp
      | some q =>
          simp only [List.foldl_cons, List.filterMap_cons, hx]
          rw [ih]
          simp [Option.getD]
          ring

/-- C1 amended: for the week, month and year views, every aggregated
chart point's escape value is the four-decimal rounding of the group
mean in which a missing escape index is silently coerced to 0: the sum
of the group's defined escape values divided by the total number of
rows of the group (missing rows included in the denominator). -/
theorem c1_zero_filled_mean (rows : List Row) (p : Period)
    (hp : p ≠ Period.day) (q : AggRow)
    (hq : q ∈ aggregateByPeriod rows p) :
    ∃ kg, kg ∈ groupByKey rows p ∧ kg.2 ≠ [] ∧ q = aggPoint kg.2 ∧
      q.escape_index_0_100 =
        some (toFixed4 ((kg.2.filterMap Row.escape_index_0_100).sum /
          (kg.2.length : ℚ))) := by
  have hform : aggregateByPeriod rows p =
      ((groupByKey rows p).map (fun kg => aggPoint kg.2)).mergeSort
        (fun a b => a.date.getD 0 ≤ b.date.getD 0) := by
    cases p
    · exact absurd rfl hp
    · rfl
    · rfl
    · rfl
  rw [hform] at hq
  rcases List.mem_map.1 ((List.mergeSort_perm _ _).mem_iff.1 hq) with
    ⟨kg, hkg, rfl⟩
  refine ⟨kg, hkg, groupByKey_ne_nil rows p kg hkg, rfl, ?_⟩
  show (aggPoint kg.2).escape_index_0_100 = _
  unfold aggPoint
  rw [foldl_escape_sum kg.2 0, zero_add]

/-- Witness for C1 on a two-row month group: one row with escape 10,
one with a missing escape; the chart point is the zero-filled mean. -/
theorem c1_witness :
    Period.month ≠ Period.day ∧
    (∃ kg, kg ∈ groupByKey [c1rowA, c1rowB] Period.month ∧ kg.2 ≠ [] ∧
      aggPoint [c1rowA, c1rowB] = aggPoint kg.2 ∧
      (aggPoint [c1rowA, c1rowB]).escape_index_0_100 =
        some (toFixed4 (((kg.2.filterMap Row.escape_index_0_100).sum) /
          (kg.2.length : ℚ)))) := by
  have hgroups : groupByKey [c1rowA, c1rowB] Period.month =
      [("2021-03", [c1rowA, c1rowB])] := by decide
  have hagg : aggregateByPeriod [c1rowA, c1rowB] Period.month =
      [aggPoint [c1rowA, c1rowB]] := by
    show ((groupByKey [c1rowA, c1rowB] Period.month).map
        (fun kg => aggPoint kg.2)).mergeSort
        (fun a b => a.date.getD 0 ≤ b.date.getD 0) = _
    rw [hgroups]
    simp [List.mergeSort_singleton]
  refine ⟨by decide, c1_zero_filled_mean [c1rowA, c1rowB] Period.month
    (by decide) (aggPoint [c1rowA, c1rowB]) ?_⟩
  rw [hagg]
  exact List.mem_singleton_self _

/-- C1 counterexample: grouping a row with escape index 10 and a row
with a missing escape index into one month yields the chart value 5
(the missing row contributed a 0 and was counted), not the
defined-values-only mean 10. -/
theorem c1_counterexample :
    (aggregateByPeriod [c1rowA, c1rowB] Period.month).map
        AggRow.escape_index_0_100 = [some 5] ∧
    definedOnlyMean [c1rowA, c1rowB] = 10 ∧
    (5 : ℚ) ≠ 10 := by
  have hgroups : groupByKey [c1rowA, c1rowB] Period.month =
      [("2021-03", [c1rowA, c1rowB])] := by decide
  have hagg : aggregateByPeriod [c1rowA, c1rowB] Period.month =
      [aggPoint [c1rowA, c1rowB]] := by
    show ((groupByKey [c1rowA, c1rowB] Period.month).map
        (fun kg => aggPoint kg.2)).mergeSort
        (fun a b => a.date.getD 0 ≤ b.date.getD 0) = _
    rw [hgroups]
    simp [List.mergeSort_singleton]
  refine ⟨?_, ?_, by norm_num⟩
  · rw [hagg]
    show [(aggPoint [c1rowA, c1rowB]).escape_index_0_100] = [some 5]
    norm_num [aggPoint, toFixed4, c1rowA, c1rowB]
  · norm_num [definedOnlyMean, c1rowA, c1rowB, List.filterMap_cons,
      List.filterMap_nil, List.sum_cons, List.sum_nil]

/-- Evaluation rule: JS subtraction on finite numbers. -/
theorem jsub_num (a b : ℚ) : jsub (.num a) (.num b) = .num (a - b) := rfl

/-- Evaluation rule: JS multiplication on finite numbers. -/
theorem jmul_num (a b : ℚ) : jmul (.num a) (.num b) = .num (a * b) := rfl

/-- Evaluation rule: JS division by a non-zero finite number. -/
theorem jdiv_num (a b : ℚ) (hb : b ≠ 0) :
    jdiv (.num a) (.num b) = .num (a / b) := by
  simp [jdiv, hb]

/-- Evaluation rule: JS `0 / 0` is NaN. -/
theorem jdiv_zero_zero : jdiv (.num 0) (.num 0) = .nan := by
  simp [jdiv]

/-- Evaluation rule: JS `Math.min` on finite numbers. -/
theorem jmin_num (a b : ℚ) : jmin (.num a) (.num b) = .num (min a b) := rfl

/-- Evaluation rule: JS `Math.max` on finite numbers. -/
theorem jmax_num (a b : ℚ) : jmax (.num a) (.num b) = .num (max a b) := rfl

/-- Evaluation rule: NaN propagates through JS multiplication. -/
theorem jmul_nan_left (x : JSNum) : jmul .nan x = .nan := by
  cases x <;> rfl

/-- Evaluation rule: NaN propagates through JS `Math.min`. -/
theorem jmin_nan_right (x : JSNum) : jmin x .nan = .nan := by
  cases x <;> rfl

/-- Evaluation rule: NaN propagates through JS `Math.max`. -/
theorem jmax_nan_right (x : JSNum) : jmax x .nan = .nan := by
  cases x <;> rfl

/-- The JS clamp `Math.max(0, Math.min(100, x))` yields NaN or a number
between 0 and 100. -/
theorem clamp01_cases (x : JSNum) :
    jmax (.num 0) (jmin (.num 100) x) = .nan ∨
      ∃ q : ℚ, jmax (.num 0) (jmin (.num 100) x) = .num q ∧
        0 ≤ q ∧ q ≤ 100 := by
  cases x with
  | nan => exact Or.inl rfl
  | inf => exact Or.inr ⟨max 0 100, rfl, le_max_left 0 100,
      max_le (by norm_num) le_rfl⟩
  | ninf => exact Or.inr ⟨0, rfl, le_rfl, by norm_num⟩
  | num a => exact Or.inr ⟨max 0 (min 100 a), rfl, le_max_left _ _,
      max_le (by norm_num) (min_le_left _ _)⟩

/-- The claim's weakened predicate holds for every clamped value. -/
theorem claimOverlayOk_clamp (x : JSNum) :
    claimOverlayOkOrNaN (some (jmax (.num 0) (jmin (.num 100) x))) = true := by
  rcases clamp01_cases x with h | ⟨q, hq, h0, h100⟩
  · rw [h]
    rfl
  · rw [hq]
    simp [claimOverlayOkOrNaN, claimOverlayOk, h0, h100]

/-- C5 amended: the generated escape index always lies between 0 and
100, and every overlay value added to the chart series is an explicit
no-value, a number clamped into 0 to 100, or NaN (NaN arising only from
the degenerate scaling cases exhibited by the counterexample). -/
theorem c5_values_bounded :
    (∀ base noise : ℚ,
        0 ≤ mockEscapeIndex base noise ∧ mockEscapeIndex base noise ≤ 100) ∧
    (∀ (conv : String → JSNum) (mlogQ : ℚ → JSNum) (opt : OverlayOption)
        (chart : List RawRow) (col : List (Option JSNum)),
        overlayColumn conv mlogQ opt chart = some col →
        ∀ v ∈ col, claimOverlayOkOrNaN v = true) := by
  constructor
  · intro base noise
    have h0 : (0 : ℚ) ≤ mockEscapeRaw base noise := le_max_left _ _
    have h100 : mockEscapeRaw base noise ≤ 100 :=
      max_le (by norm_num) (min_le_left _ _)
    unfold mockEscapeIndex jsRound
    constructor
    · apply div_nonneg _ (by norm_num)
      have : (0 : ℤ) ≤ ⌊mockEscapeRaw base noise * 100 + 1 / 2⌋ :=
        Int.floor_nonneg.mpr (by nlinarith)
      exact_mod_cast this
    · rw [div_le_iff₀ (by norm_num : (0 : ℚ) < 100)]
      have h1 : ⌊mockEscapeRaw base noise * 100 + 1 / 2⌋ ≤
          ⌊(10000 : ℚ) + 1 / 2⌋ := Int.floor_le_floor (by nlinarith)
      have h2 : ⌊(10000 : ℚ) + 1 / 2⌋ = 10000 := by norm_num
      rw [h2] at h1
      calc (⌊mockEscapeRaw base noise * 100 + 1 / 2⌋ : ℚ) ≤ 10000 := by
            exact_mod_cast h1
        _ = 100 * 100 := by norm_num
  · intro conv mlogQ opt chart col hcol v hv
    simp only [overlayColumn] at hcol
    split at hcol
    · exact absurd hcol (by simp)
    · rw [Option.some.injEq] at hcol
      subst hcol
      rcases List.mem_map.1 hv with ⟨w, hw, rfl⟩
      by_cases hg : w = .jnull ∨ w = .jundef ∨ toNumber conv w = .nan
      · simp [hg, claimOverlayOkOrNaN, claimOverlayOk]
      · rw [if_neg hg]
        exact claimOverlayOk_clamp _

/-- Witness for C5: the bound at a concrete mock input, and the
crowding-z overlay of a one-row chart, whose single value 50 satisfies
the predicate. -/
theorem c5_witness :
    (0 ≤ mockEscapeIndex 50 (1 / 2) ∧ mockEscapeIndex 50 (1 / 2) ≤ 100) ∧
    claimOverlayOkOrNaN (some (.num 50)) = true := by
  have hcol : overlayColumn demoConv demoLog overlayOptCrowd c5chartPlain =
      some [some (.num 50)] := by
    have hov : overlayColumn demoConv demoLog overlayOptCrowd c5chartPlain =
        some [some (jmax (.num 0) (jmin (.num 100)
          (jmul (jdiv (jsub (.num 0) (.num (-3))) (jsub (.num 3) (.num (-3))))
            (.num 100))))] := rfl
    rw [hov]
    norm_num [jsub_num, jdiv_num, jmul_num, jmin_num, jmax_num,
      min_def, max_def]
  exact ⟨c5_values_bounded.1 50 (1 / 2),
    c5_values_bounded.2 demoConv demoLog overlayOptCrowd c5chartPlain
      [some (.num 50)] hcol (some (.num 50)) (List.mem_singleton_self _)⟩

/-- C5 counterexample: a chart whose hs300 closes are all 0 makes the
dynamically computed maximum equal the configured minimum; the linear
scaling then divides 0 by 0 and the overlay value added to the chart is
NaN, which is neither a no-value marker nor a number in 0 to 100. -/
theorem c5_counterexample :
    overlayColumn demoConv demoLog overlayOptClose c5chartDegenerate =
      some [some JSNum.nan] ∧
    claimOverlayOk (some JSNum.nan) = false := by
  constructor
  · have hov : overlayColumn demoConv demoLog overlayOptClose c5chartDegenerate =
        some [some (jmax (.num 0) (jmin (.num 100)
          (jmul (jdiv (jsub (.num 0) (.num 0)) (jsub (.num 0) (.num 0)))
            (.num 100))))] := rfl
    rw [hov, jsub_num]
    have h00 : (0 : ℚ) - 0 = 0 := by norm_num
    rw [h00, jdiv_zero_zero, jmul_nan_left, jmin_nan_right, jmax_nan_right]
  · rfl

/-- Writing the last position of a non-empty list replaces its last
element. -/
theorem set_last_eq {α : Type} (l : List α) (v : α) (h : l ≠ []) :
    l.set (l.length - 1) v = l.dropLast ++ [v] := by
  induction l with
  | nil => exact absurd rfl h
  | cons a t ih =>
      cases t with
      | nil => rfl
      | cons b u =>
          show a :: (b :: u).set ((b :: u).length - 1) v =
            (a :: (b :: u).dropLast) ++ [v]
          rw [ih (by simp)]
          rfl

/-- The evenly spaced selection indices are strictly increasing. -/
theorem dsIdx_mono (n target i j : Nat) (ht : 0 < target) (hn : target < n)
    (hij : i < j) : i * n / target < j * n / target := by
  have hin : i * n + n ≤ j * n := by
    calc i * n + n = (i + 1) * n := (Nat.succ_mul i n).symm
      _ ≤ j * n := Nat.mul_le_mul_right n hij
  have h1 : i * n + target ≤ j * n := by
    have htn : target ≤ n := Nat.le_of_lt hn
    omega
  calc i * n / target < i * n / target + 1 := Nat.lt_succ_self _
    _ = (i * n + target) / target := (Nat.add_div_right _ ht).symm
    _ ≤ j * n / target := Nat.div_le_div_right h1

/-- The evenly spaced selection indices stay in bounds. -/
theorem dsIdx_lt (n target i : Nat) (ht : 0 < target) (hn : target < n)
    (hi : i < target) : i * n / target < n := by
  rw [Nat.div_lt_iff_lt_mul ht]
  have hn0 : 0 < n := Nat.lt_of_le_of_lt (Nat.zero_le _) hn
  calc i * n < target * n := Nat.mul_lt_mul_of_pos_right hi hn0
    _ = n * target := Nat.mul_comm _ _

/-- A selection of strictly increasing in-bounds indices is a sublist
of the source. -/
theorem mapGetD_sublist {α : Type} [Inhabited α] (data : List α)
    (g : Nat → Nat) (k : Nat) (hmono : ∀ i j, i < j → g i < g j)
    (hbound : ∀ i, i < k → g i < data.length) :
    ((List.range k).map (fun i => data.getD (g i) default)).Sublist data := by
  have hout : (List.range k).map (fun i => data.getD (g i) default) =
      ((List.range k).attach.map (fun x =>
        (⟨g x.1, hbound x.1 (List.mem_range.1 x.2)⟩ : Fin data.length))).map
        data.get := by
    rw [List.map_map,
      ← List.attach_map_val (List.range k) (fun i => data.getD (g i) default)]
    apply List.map_congr_left
    intro x hx
    show data.getD (g x.1) default = data.get ⟨g x.1, _⟩
    rw [List.getD_eq_getElem data default (hbound x.1 (List.mem_range.1 x.2))]
    rfl
  rw [hout]
  apply List.map_get_sublist
  rw [List.pairwise_map]
  have h1 : List.Pairwise (· < ·) ((List.range k).attach.map Subtype.val) := by
    rw [List.attach_map_subtype_val]
    exact List.pairwise_lt_range k
  exact ((List.pairwise_map).1 h1).imp (fun hab => hmono _ _ hab)

/-- A strictly increasing selection that stays below the last index,
followed by the last element, is a sublist of the source. -/
theorem mapGetD_concat_sublist {α : Type} [Inhabited α] (data : List α)
    (g : Nat → Nat) (k : Nat) (hmono : ∀ i j, i < j → g i < g j)
    (hbound : ∀ i, i < k → g i < data.length - 1) (hlen : 0 < data.length) :
    (((List.range k).map (fun i => data.getD (g i) default)) ++
      [data.getD (data.length - 1) default]).Sublist data := by
  have hlast : data.length - 1 < data.length := Nat.sub_lt hlen Nat.one_pos
  have hbound' : ∀ i, i < k → g i < data.length :=
    fun i hi => Nat.lt_of_lt_of_le (hbound i hi) (Nat.sub_le _ _)
  have hout : ((List.range k).map (fun i => data.getD (g i) default)) ++
      [data.getD (data.length - 1) default] =
      (((List.range k).attach.map (fun x =>
        (⟨g x.1, hbound' x.1 (List.mem_range.1 x.2)⟩ : Fin data.length))) ++
        [(⟨data.length - 1, hlast⟩ : Fin data.length)]).map data.get := by
    rw [List.map_append, List.map_map,
      ← List.attach_map_val (List.range k) (fun i => data.getD (g i) default)]
    congr 1
    · apply List.map_congr_left
      intro x hx
      show data.getD (g x.1) default = data.get ⟨g x.1, _⟩
      rw [List.getD_eq_getElem data default (hbound' x.1 (List.mem_range.1 x.2))]
      rfl
    · show [data.getD (data.length - 1) default] =
        [data.get ⟨data.length - 1, hlast⟩]
      rw [List.getD_eq_getElem data default hlast]
      rfl
  rw [hout]
  apply List.map_get_sublist
  rw [List.pairwise_append]
  refine ⟨?_, List.pairwise_singleton _ _, ?_⟩
  · rw [List.pairwise_map]
    have h1 : List.Pairwise (· < ·) ((List.range k).attach.map Subtype.val) := by
      rw [List.attach_map_subtype_val]
      exact List.pairwise_lt_range k
    exact ((List.pairwise_map).1 h1).imp (fun hab => hmono _ _ hab)
  · intro a ha b hb
    rcases List.mem_map.1 ha with ⟨x, hx, rfl⟩
    rcases List.mem_singleton.1 hb with rfl
    exact hbound x.1 (List.mem_range.1 x.2)

/-- C6 (amended): downsampling returns the list itself when its length
is at most the target; otherwise, for a positive target, it returns
exactly `target` elements forming a sublist of the input (elements in
their original order, none modified or fabricated) whose last element
is the input's last element. -/
theorem c6_downsample {α : Type} [Inhabited α] [DecidableEq α]
    (data : List α) (target : Nat) :
    (data.length ≤ target → downsampleEven data target = data) ∧
    (0 < target → target < data.length →
      (downsampleEven data target).length = target ∧
      (downsampleEven data target).Sublist data ∧
      (downsampleEven data target).getLast? = data.getLast?) := by
  constructor
  · intro h
    unfold downsampleEven
    rw [if_pos h]
  · intro ht hn
    have hnle : ¬data.length ≤ target := not_le.2 hn
    have hlen0 : 0 < data.length := Nat.lt_of_le_of_lt (Nat.zero_le _) hn
    have hd : downsampleEven data target =
        (if ((List.range target).map (fun i =>
              data.getD (i * data.length / target) default)).getLast? =
            data.getLast?
         then (List.range target).map (fun i =>
              data.getD (i * data.length / target) default)
         else ((List.range target).map (fun i =>
              data.getD (i * data.length / target) default)).set
            (((List.range target).map (fun i =>
              data.getD (i * data.length / target) default)).length - 1)
            (data.getD (data.length - 1) default)) := by
      unfold downsampleEven
      rw [if_neg hnle]
    have hdata_last : data.getLast? =
        some (data.getD (data.length - 1) default) := by
      rw [List.getLast?_eq_getElem?,
        List.getElem?_eq_getElem (Nat.sub_lt hlen0 Nat.one_pos),
        List.getD_eq_getElem data default (Nat.sub_lt hlen0 Nat.one_pos)]
    rw [hd]
    by_cases hlast : ((List.range target).map (fun i =>
        data.getD (i * data.length / target) default)).getLast? =
        data.getLast?
    · rw [if_pos hlast]
      refine ⟨?_, ?_, hlast⟩
      · rw [List.length_map, List.length_range]
      · exact mapGetD_sublist data (fun i => i * data.length / target) target
          (fun i j hij => dsIdx_mono data.length target i j ht hn hij)
          (fun i hi => dsIdx_lt data.length target i ht hn hi)
    · rw [if_neg hlast]
      have houtne : ((List.range target).map (fun i =>
          data.getD (i * data.length / target) default)) ≠ [] :=
        (List.length_pos).1 (by rw [List.length_map, List.length_range]; exact ht)
      have hrange : List.range target = List.range (target - 1) ++ [target - 1] := by
        conv_lhs => rw [← Nat.succ_pred_eq_of_pos ht]
        exact List.range_succ (target - 1)
      have hdrop : ((List.range target).map (fun i =>
          data.getD (i * data.length / target) default)).dropLast =
          (List.range (target - 1)).map (fun i =>
            data.getD (i * data.length / target) default) := by
        rw [hrange, List.map_append]
        exact List.dropLast_concat
      rw [set_last_eq _ _ houtne, hdrop]
      refine ⟨?_, ?_, ?_⟩
      · simp only [List.length_append, List.length_map, List.length_range,
          List.length_singleton]
        omega
      · exact mapGetD_concat_sublist data
          (fun i => i * data.length / target) (target - 1)
          (fun i j hij => dsIdx_mono data.length target i j ht hn hij)
          (fun i hi => by
            show i * data.length / target < data.length - 1
            have h1 : i * data.length / target <
                (target - 1) * data.length / target :=
              dsIdx_mono data.length target i (target - 1) ht hn hi
            have h2 : (target - 1) * data.length / target < data.length :=
              dsIdx_lt data.length target (target - 1) ht hn
                (Nat.sub_lt ht Nat.one_pos)
            omega) hlen0
      · rw [List.getLast?_concat, hdata_last]

/-- Witness for C6: a short list passes through unchanged; a five-point
list downsampled to 2 keeps 2 of its elements in order, ending with the
last one. -/
theorem c6_witness :
    downsampleEven ([1, 2, 3] : List ℕ) 5 = [1, 2, 3] ∧
    (downsampleEven ([10, 20, 30, 40, 50] : List ℕ) 2).length = 2 ∧
    (downsampleEven ([10, 20, 30, 40, 50] : List ℕ) 2).Sublist
      [10, 20, 30, 40, 50] ∧
    (downsampleEven ([10, 20, 30, 40, 50] : List ℕ) 2).getLast? =
      ([10, 20, 30, 40, 50] : List ℕ).getLast? := by
  have h1 := (c6_downsample ([1, 2, 3] : List ℕ) 5).1 (by decide)
  have h2 := (c6_downsample ([10, 20, 30, 40, 50] : List ℕ) 2).2
    (by decide) (by decide)
  exact ⟨h1, h2.1, h2.2.1, h2.2.2⟩

/-- C6 counterexample: with target 0 and a non-empty input the result
is empty, so the input's last element is not included. -/
theorem c6_counterexample :
    downsampleEven ([7] : List ℕ) 0 = [] ∧
    (downsampleEven ([7] : List ℕ) 0).getLast? ≠ some 7 ∧
    ([7] : List ℕ).getLast? = some 7 := by
  refine ⟨by decide, by decide, by decide⟩
